import Mathlib

/-!
Verification of the three-dxf intersection pipeline.

The JavaScript source computes with IEEE doubles; the intersection engine
(findCrossPoint, getCoefficienConst, solveSimultaneousEquation) only uses
min, max, comparisons and the exact solution of 2-by-2 linear systems, so it
is embedded over the exact rationals.  The bulge tessellator uses
transcendental functions (atan, sin, cos, acos, sqrt) and is embedded over
the reals further below.
-/

/-- A 2D point, the shape of the JS objects passed around the source. -/
structure Pt where
  x : ℚ
  y : ℚ
deriving DecidableEq

/-- A line segment.  The source field named end is a Lean keyword, so it is
called stop here. -/
structure Seg where
  start : Pt
  stop : Pt
deriving DecidableEq

/-- Models math.lusolve(math.matrix([[a,b],[c,d]]), math.matrix([r1,r2])) on a
2-by-2 system: over exact arithmetic LU decomposition returns the unique
solution of the system, and math.js throws a matrix-is-singular error exactly
when the determinant is zero, modelled by none. -/
def solveSimultaneousEquation (a b c d r1 r2 : ℚ) : Option (ℚ × ℚ) :=
  let det := a * d - b * c
  if det = 0 then none
  else some ((r1 * d - b * r2) / det, (a * r2 - r1 * c) / det)

/-- getCoefficienConst of the source: [null,null] for two identical points,
[x,null] for a vertical line, [null,y] for a horizontal line, and the
solution [a,k] of [[x1,1],[x2,1]].[a,k] = [y1,y2] otherwise.  null is
modelled by none.  The final none branch is unreachable: x1 differs from x2
there, so the system is never singular. -/
def getCoefficienConst (point1 point2 : Pt) : Option ℚ × Option ℚ :=
  if point1.x = point2.x ∧ point1.y = point2.y then (none, none)
  else if point1.x = point2.x then (some point1.x, none)
  else if point1.y = point2.y then (none, some point1.y)
  else
    match solveSimultaneousEquation point1.x 1 point2.x 1 point1.y point2.y with
    | some (a, k) => (some a, some k)
    | none => (none, none)

/-- Outcome of the null-comparison chain of findCrossPoint for one candidate:
skip is a continue statement (the acceptance check is not reached), keep
falls through to the acceptance check leaving intersectX/intersectY at their
previous values (the singular sloped-sloped case: math.lusolve throws, the
catch block only logs, and var-declared intersectX/intersectY are
function-scoped so they keep the value of an earlier iteration), and found p
falls through with freshly assigned values. -/
inductive CaseOut
  | skip
  | keep
  | found (p : Pt)
deriving DecidableEq

/-- The if/else-if chain of findCrossPoint lines 111-151, in source order.
(ao, ko) are the origin (query) coefficients, (at', kt) the target
(candidate) ones; the source spells at' as at, a Lean keyword. -/
def intersectCase (ao ko at' kt : Option ℚ) : CaseOut :=
  if at'.isNone ∧ kt.isNone then .skip                     -- target degenerate
  else if ao.isNone ∧ ko.isNone then .skip                 -- origin degenerate
  else if ko.isNone ∧ kt.isNone then .skip                 -- vertical-vertical
  else if ao.isNone ∧ at'.isNone then .skip                -- horizontal-horizontal
  else
    match ao, ko, at', kt with
    | some vao, none, none, some vkt => .found ⟨vao, vkt⟩  -- X = ao, Y = kt
    | none, some vko, some vat, none => .found ⟨vat, vko⟩  -- X = at, Y = ko
    | some vao, none, some vat, some vkt => .found ⟨vao, vat * vao + vkt⟩
    | none, some vko, some vat, some vkt => .found ⟨(vko - vkt) / vat, vko⟩
    | some vao, some vko, some vat, none => .found ⟨vat, vao * vat + vko⟩
    | some vao, some vko, none, some vkt => .found ⟨(vkt - vko) / vao, vkt⟩
    | some vao, some vko, some vat, some vkt =>
        -- solve [[1,-ao],[1,-at]].[Y,X] = [ko,kt]; result[0][0] is Y,
        -- result[1][0] is X; singular exactly when ao = at.
        match solveSimultaneousEquation 1 (-1 * vao) 1 (-1 * vat) vko vkt with
        | some (yv, xv) => .found ⟨xv, yv⟩
        | none => .keep
    | _, _, _, _ => .skip  -- unreachable: covered by the four guards above

/-- The bounding-box prune of findCrossPoint line 101: continue when the two
boxes are disjoint. -/
def bboxReject (point1 point2 : Pt) (s : Seg) : Prop :=
  let minxo := min point1.x point2.x
  let minyo := min point1.y point2.y
  let maxxo := max point1.x point2.x
  let maxyo := max point1.y point2.y
  let minxt := min s.start.x s.stop.x
  let minyt := min s.start.y s.stop.y
  let maxxt := max s.start.x s.stop.x
  let maxyt := max s.start.y s.stop.y
  maxxt < minxo ∨ maxxo < minxt ∨ maxyt < minyo ∨ maxyo < minyt

instance (point1 point2 : Pt) (s : Seg) : Decidable (bboxReject point1 point2 s) := by
  unfold bboxReject; infer_instance

/-- The acceptance check of findCrossPoint lines 152-159 on the current
values of intersectX/intersectY. -/
def acceptCond (point1 point2 : Pt) (s : Seg) (p : Pt) : Prop :=
  let minxo := min point1.x point2.x
  let minyo := min point1.y point2.y
  let maxxo := max point1.x point2.x
  let maxyo := max point1.y point2.y
  let minxt := min s.start.x s.stop.x
  let minyt := min s.start.y s.stop.y
  let maxxt := max s.start.x s.stop.x
  let maxyt := max s.start.y s.stop.y
  max minxo minxt ≤ p.x ∧ p.x ≤ min maxxo maxxt ∧
    max minyo minyt ≤ p.y ∧ p.y ≤ min maxyo maxyt ∧
    ¬(p.x = point1.x ∧ p.y = point1.y) ∧ ¬(p.x = point2.x ∧ p.y = point2.y)

instance (point1 point2 : Pt) (s : Seg) (p : Pt) : Decidable (acceptCond point1 point2 s p) := by
  unfold acceptCond; infer_instance

/-- The points pushed while processing one candidate, given the current
intersectX/intersectY state xy (none models the JS value undefined, whose
numeric comparisons are all false, so nothing is pushed). -/
def checkPush (point1 point2 : Pt) (s : Seg) (xy : Option Pt) : List Pt :=
  match xy with
  | none => []
  | some p => if acceptCond point1 point2 s p then [p] else []

/-- The points pushed during one loop iteration of findCrossPoint. -/
def emitOf (point1 point2 : Pt) (xy : Option Pt) (s : Seg) : List Pt :=
  if bboxReject point1 point2 s then []
  else
    let tc := getCoefficienConst s.start s.stop
    let oc := getCoefficienConst point1 point2
    match intersectCase oc.1 oc.2 tc.1 tc.2 with
    | .skip => []
    | .keep => checkPush point1 point2 s xy
    | .found p => checkPush point1 point2 s (some p)

/-- The value of intersectX/intersectY after one loop iteration. -/
def nextXY (point1 point2 : Pt) (xy : Option Pt) (s : Seg) : Option Pt :=
  if bboxReject point1 point2 s then xy
  else
    let tc := getCoefficienConst s.start s.stop
    let oc := getCoefficienConst point1 point2
    match intersectCase oc.1 oc.2 tc.1 tc.2 with
    | .skip => xy
    | .keep => xy
    | .found p => some p

/-- One iteration of the findCrossPoint loop: state is the intersects array
plus the current intersectX/intersectY values. -/
def fcpStep (point1 point2 : Pt) (st : List Pt × Option Pt) (s : Seg) :
    List Pt × Option Pt :=
  (st.1 ++ emitOf point1 point2 st.2 s, nextXY point1 point2 st.2 s)

/-- The loop state of findCrossPoint after processing a list of candidates:
the intersects array so far and the current intersectX/intersectY values. -/
def fcpRun (point1 point2 : Pt) (finieshLines : List Seg) : List Pt × Option Pt :=
  finieshLines.foldl (fcpStep point1 point2) ([], none)

/-- findCrossPoint of the source (the THREE.Points wrapping of each pushed
vertex is dropped: each pushed object carries exactly one intersection
point). -/
def findCrossPoint (point1 point2 : Pt) (finieshLines : List Seg) : List Pt :=
  (fcpRun point1 point2 finieshLines).1

/-- The points pushed during iteration c of the findCrossPoint loop (the
intersectX/intersectY state entering iteration c is the one left by the
first c iterations). -/
def emitAt (point1 point2 : Pt) (finieshLines : List Seg) (c : ℕ) : List Pt :=
  emitOf point1 point2 (fcpRun point1 point2 (finieshLines.take c)).2
    (finieshLines.getD c ⟨⟨0, 0⟩, ⟨0, 0⟩⟩)

/-!
The driver (createIntersectPoints and asynccParallel of the source).

createIntersectPoint wraps findCrossPoint in an immediately resolved
promise; a work item of the intersection phase is modelled by the argument
triple its thunk captures.

asynccParallel builds `concurrency` promises sharing one single-pass
iterator.  Each promise runs an async executor: it synchronously pulls
iterator.next(), awaits the work item, appends the value to a worker-local
array, and repeats until the iterator is done, then calls resolve.  The
interleaving of the workers at their await points is modelled by an explicit
schedule: a list of worker indices, each entry letting that worker run from
one await point to the next (pulling and executing one item, or observing
the drained iterator and resolving).  Pulling is atomic: iterator.next() is
synchronous, so no two workers can pull the same item.

Error semantics: the executor passed to new Promise is an async function,
so a rejection inside it (a work item throwing) rejects the async function's
own implicit promise, which nobody observes; the executor stops (that worker
pulls no more items) but resolve is never called, the outer promise never
settles, Promise.all never settles, and the caller of asynccParallel gets
nothing - the error surfaces only as a global unhandled rejection.  The
caller-visible outcome is therefore modelled as an Option: some groups once
every worker has resolved, none while (or forever, after a failure) the
batch has not settled.  Workers other than the failing one are unaffected
and keep draining the iterator.
-/

/-- createIntersectPoint of the source: an immediately resolved promise
around findCrossPoint. -/
def createIntersectPoint (start stop : Pt) (finieshLines : List Seg) : List Pt :=
  findCrossPoint start stop finieshLines

/-- The generator of createIntersectPoints: for index = INIT(=0) to
MAX(=lines.length)-1 it yields a thunk calling
createIntersectPoint(line.start, line.end, finieshLines) where
line = lines[index] and finieshLines = lines.slice(0, index), the strict
prefix before index (Array.prototype.slice(0, n) is List.take n). -/
def createGenerator (lines : List Seg) : List (Pt × Pt × List Seg) :=
  (List.range lines.length).map fun index =>
    ((lines.getD index ⟨⟨0, 0⟩, ⟨0, 0⟩⟩).start,
      (lines.getD index ⟨⟨0, 0⟩, ⟨0, 0⟩⟩).stop, lines.take index)

/-- Running one yielded work item of the intersection phase. -/
def runWorkItem (item : Pt × Pt × List Seg) : List Pt :=
  createIntersectPoint item.1 item.2.1 item.2.2

/-- Status of one worker promise of asynccParallel: still pulling items,
resolved (it saw the iterator done), or failed (a work item it awaited threw;
its async executor stopped without ever calling resolve). -/
inductive WStatus (ε : Type)
  | running
  | done
  | failed (e : ε)
deriving DecidableEq

/-- One worker promise: its local vals array and its status. -/
structure PoolWorker (β ε : Type) where
  vals : List β
  status : WStatus ε
deriving DecidableEq

/-- State of the pool: the items the shared iterator has not yet yielded,
and the workers. -/
structure PoolState (α β ε : Type) where
  remaining : List α
  workers : List (PoolWorker β ε)
deriving DecidableEq

/-- The pool right after Array.from creates the worker promises. -/
def initPool {α β ε : Type} (items : List α) (concurrency : ℕ) : PoolState α β ε :=
  ⟨items, List.replicate concurrency ⟨[], .running⟩⟩

/-- One scheduling step: worker w runs from one await point to the next.
A running worker pulls iterator.next(): if done it resolves with its vals;
otherwise it executes the item, pushing the value on success or stopping
for good if the item throws.  A resolved or failed worker, or an index out
of range, does nothing. -/
def poolStep {α β ε : Type} (exec : α → Except ε β) (s : PoolState α β ε)
    (w : ℕ) : PoolState α β ε :=
  match s.workers.get? w with
  | none => s
  | some wk =>
    match wk.status with
    | .running =>
      match s.remaining with
      | [] => ⟨[], s.workers.set w ⟨wk.vals, .done⟩⟩
      | a :: rest =>
        match exec a with
        | .ok b => ⟨rest, s.workers.set w ⟨wk.vals ++ [b], .running⟩⟩
        | .error e => ⟨rest, s.workers.set w ⟨wk.vals, .failed e⟩⟩
    | _ => s

/-- The pool after a sequence of scheduling steps. -/
def runPool {α β ε : Type} (exec : α → Except ε β) (items : List α)
    (concurrency : ℕ) (schedule : List ℕ) : PoolState α β ε :=
  schedule.foldl (poolStep exec) (initPool items concurrency)

/-- The caller-visible outcome of asynccParallel after the given schedule:
Promise.all has settled (with the per-worker vals arrays, in worker order)
exactly when every worker promise has resolved; otherwise the caller has
nothing (and if a worker failed, nothing ever). -/
def asynccParallel {α β ε : Type} [DecidableEq ε] (exec : α → Except ε β)
    (items : List α) (concurrency : ℕ) (schedule : List ℕ) :
    Option (List (List β)) :=
  let s := runPool exec items concurrency schedule
  if ∀ wk ∈ s.workers, wk.status = .done then some (s.workers.map (·.vals))
  else none

/-!
The bulge arc tessellator (THREEx.Math.angle2, THREEx.Math.polar,
THREEx.BulgeGeometry of the source), embedded over the reals as the exact
idealisation of the IEEE doubles the JS code computes with.  The claims all
supply both endpoints, so the undefined-argument defaults of lines 46-51 are
not modelled (a missing startPoint would in fact throw at line 56, where the
raw startPoint argument is dereferenced).  THREE.Vector3.normalize of the
zero vector leaves the zero vector, which agrees with the Lean convention
x / 0 = 0.
-/

/-- A 2D point with real coordinates (the z component, always 0 in the
source, is dropped). -/
structure RPt where
  x : ℝ
  y : ℝ

/-- THREEx.Math.angle2: the chord p2 - p1 is normalized and the angle of the
result against (1,0) is taken, signed by the y component. -/
noncomputable def angle2 (p1 p2 : RPt) : ℝ :=
  let dx := p2.x - p1.x
  let dy := p2.y - p1.y
  let len := Real.sqrt (dx ^ 2 + dy ^ 2)
  let nx := dx / len
  let ny := dy / len
  if ny < 0 then -Real.arccos nx else Real.arccos nx

/-- THREEx.Math.polar: the point at the given distance and angle from
point. -/
noncomputable def polar (point : RPt) (distance angle : ℝ) : RPt :=
  ⟨point.x + distance * Real.cos angle, point.y + distance * Real.sin angle⟩

/-- THREE.Vector3.distanceTo restricted to the plane. -/
noncomputable def distanceTo (p q : RPt) : ℝ :=
  Real.sqrt ((p.x - q.x) ^ 2 + (p.y - q.y) ^ 2)

/-- Line 52: bulge = bulge || 1.  On the real-number model the only falsy
number is 0. -/
noncomputable def bulgeEffective (bulge : ℝ) : ℝ :=
  if bulge = 0 then 1 else bulge

/-- Line 53: angle = 4 * Math.atan(bulge), after the falsy default. -/
noncomputable def bulgeAngle (bulge : ℝ) : ℝ :=
  4 * Real.arctan (bulgeEffective bulge)

/-- Line 61: Math.max(Math.abs(Math.ceil(angle / (Math.PI / 18))), 6).
Math.ceil is the integer ceiling and Math.abs on it is natAbs. -/
noncomputable def defaultSegments (angle : ℝ) : ℕ :=
  max (⌈angle / (Real.pi / 18)⌉).natAbs 6

/-- Lines 60-61: segments = segments || default.  A given count of 0 is
falsy and also falls back to the default. -/
noncomputable def segCount (bulge : ℝ) (segments : Option ℕ) : ℕ :=
  match segments with
  | some n => if n = 0 then defaultSegments (bulgeAngle bulge) else n
  | none => defaultSegments (bulgeAngle bulge)

/-- Line 54: radius = p0.distanceTo(p1) / 2 / Math.sin(angle / 2). -/
noncomputable def bulgeRadius (p0 p1 : RPt) (bulge : ℝ) : ℝ :=
  distanceTo p0 p1 / 2 / Real.sin (bulgeAngle bulge / 2)

/-- Lines 55-59: center = polar(startPoint, radius, angle2(p0,p1) +
(PI/2 - angle/2)). -/
noncomputable def bulgeCenter (p0 p1 : RPt) (bulge : ℝ) : RPt :=
  polar p0 (bulgeRadius p0 p1 bulge) (angle2 p0 p1 + (Real.pi / 2 - bulgeAngle bulge / 2))

/-- Line 62: startAngle = angle2(center, p0). -/
noncomputable def bulgeStartAngle (p0 p1 : RPt) (bulge : ℝ) : ℝ :=
  angle2 (bulgeCenter p0 p1 bulge) p0

/-- Lines 64-72: this.vertices - p0 first, then for i = 1 .. segments-1 the
point polar(center, Math.abs(radius), startAngle + thetaAngle * i), where
thetaAngle = angle / segments.  List.range' 1 (segs - 1) is the index list
[1, ..., segs-1] of the for loop. -/
noncomputable def bulgeVertices (p0 p1 : RPt) (bulge : ℝ) (segments : Option ℕ) :
    List RPt :=
  let segs := segCount bulge segments
  let thetaAngle := bulgeAngle bulge / segs
  p0 :: (List.range' 1 (segs - 1)).map fun i : ℕ =>
    polar (bulgeCenter p0 p1 bulge) |bulgeRadius p0 p1 bulge|
      (bulgeStartAngle p0 p1 bulge + thetaAngle * (i : ℝ))

/-- Written from the words of the spec, for comparison in claim C5: segment
count max(ceil(abs(includedAngle) / 10 degrees), 6) where includedAngle is
4 atan(bulge) after the falsy default. -/
noncomputable def specSegCount (bulge : ℝ) : ℕ :=
  max (⌈|bulgeAngle bulge| / (Real.pi / 18)⌉).toNat 6

/-! Structure lemmas for the tessellator output. -/

lemma segCount_some (bulge : ℝ) (n : ℕ) (hn : n ≠ 0) :
    segCount bulge (some n) = n := by
  simp [segCount, hn]

lemma bulgeVertices_length (p0 p1 : RPt) (bulge : ℝ) (segments : Option ℕ)
    (h : 1 ≤ segCount bulge segments) :
    (bulgeVertices p0 p1 bulge segments).length = segCount bulge segments := by
  simp only [bulgeVertices, List.length_cons, List.length_map, List.length_range']
  omega

lemma bulgeVertices_getD_zero (p0 p1 : RPt) (bulge : ℝ) (segments : Option ℕ) :
    (bulgeVertices p0 p1 bulge segments).getD 0 ⟨0, 0⟩ = p0 := rfl

lemma bulgeVertices_getD (p0 p1 : RPt) (bulge : ℝ) (segments : Option ℕ) (i : ℕ)
    (h1 : 1 ≤ i) (h2 : i < segCount bulge segments) :
    (bulgeVertices p0 p1 bulge segments).getD i ⟨0, 0⟩ =
      polar (bulgeCenter p0 p1 bulge) |bulgeRadius p0 p1 bulge|
        (bulgeStartAngle p0 p1 bulge +
          bulgeAngle bulge / (segCount bulge segments : ℝ) * i) := by
  obtain ⟨j, rfl⟩ : ∃ j, i = j + 1 := ⟨i - 1, by omega⟩
  simp only [bulgeVertices, List.getD_cons_succ]
  rw [List.getD_eq_getElem?_getD, List.getElem?_map,
    List.getElem?_range' 1 1 (show j < segCount bulge segments - 1 by omega)]
  simp only [Option.map_some', Option.getD_some]
  norm_num [Nat.add_comm 1 j]

/-! Evaluation of the semicircle instance: start (0,0), end (2,0), bulge 1,
default segment count. -/

lemma bulgeAngle_one : bulgeAngle 1 = Real.pi := by
  rw [bulgeAngle, bulgeEffective, if_neg one_ne_zero, Real.arctan_one]
  ring

lemma semicircle_dist : distanceTo ⟨0, 0⟩ ⟨2, 0⟩ = 2 := by
  rw [distanceTo]
  norm_num
  rw [show (4 : ℝ) = 2 ^ 2 by norm_num, Real.sqrt_sq (by norm_num)]

lemma semicircle_radius : bulgeRadius ⟨0, 0⟩ ⟨2, 0⟩ 1 = 1 := by
  rw [bulgeRadius, bulgeAngle_one, semicircle_dist]
  norm_num [Real.sin_pi_div_two]

lemma semicircle_angle2 : angle2 ⟨0, 0⟩ ⟨2, 0⟩ = 0 := by
  have h4 : Real.sqrt 4 = 2 := by
    rw [show (4 : ℝ) = 2 ^ 2 by norm_num, Real.sqrt_sq (by norm_num)]
  simp only [angle2]
  norm_num [h4, Real.arccos_one]

lemma semicircle_center : bulgeCenter ⟨0, 0⟩ ⟨2, 0⟩ 1 = ⟨1, 0⟩ := by
  rw [bulgeCenter, semicircle_radius, semicircle_angle2, bulgeAngle_one]
  rw [show (0 : ℝ) + (Real.pi / 2 - Real.pi / 2) = 0 by ring]
  simp [polar]

lemma semicircle_startAngle : bulgeStartAngle ⟨0, 0⟩ ⟨2, 0⟩ 1 = Real.pi := by
  rw [bulgeStartAngle, semicircle_center]
  simp only [angle2]
  norm_num [Real.sqrt_one, Real.arccos_neg_one]

lemma semicircle_segCount : segCount 1 none = 18 := by
  show defaultSegments (bulgeAngle 1) = 18
  rw [defaultSegments, bulgeAngle_one]
  rw [show Real.pi / (Real.pi / 18) = 18 by field_simp]
  norm_num

lemma semicircle_middle :
    (bulgeVertices ⟨0, 0⟩ ⟨2, 0⟩ 1 none).getD 9 ⟨0, 0⟩ = ⟨1, -1⟩ := by
  rw [bulgeVertices_getD _ _ _ _ 9 (by norm_num)
    (by rw [semicircle_segCount]; norm_num)]
  rw [semicircle_center, semicircle_radius, semicircle_startAngle, bulgeAngle_one,
    semicircle_segCount]
  rw [show Real.pi + Real.pi / ((18 : ℕ) : ℝ) * ((9 : ℕ) : ℝ) =
    Real.pi + Real.pi / 2 by push_cast; ring]
  simp [polar, Real.cos_add, Real.sin_add, Real.cos_pi, Real.sin_pi,
    Real.cos_pi_div_two, Real.sin_pi_div_two]

/-- Claim C4, counterexample: tessellating the semicircle start (0,0),
end (2,0), bulge 1 with the default segment count puts the middle interior
point (index 9 of the vertex list, the 9th of the 17 interior points) at
exactly (1, -1), which is at distance 2 from the (1, 1) the claim states, so
it is not within any floating tolerance of (1, 1). -/
theorem bulgeVertices_semicircle_middle_low :
    (bulgeVertices ⟨0, 0⟩ ⟨2, 0⟩ 1 none).getD 9 ⟨0, 0⟩ = ⟨1, -1⟩ ∧
      ¬(bulgeVertices ⟨0, 0⟩ ⟨2, 0⟩ 1 none).getD 9 ⟨0, 0⟩ = ⟨1, 1⟩ := by
  refine ⟨semicircle_middle, ?_⟩
  rw [semicircle_middle]
  intro h
  have hy := congrArg RPt.y h
  norm_num at hy

/-- Claim C4, amended: tessellating the semicircle start (0,0), end (2,0),
bulge 1 (includedAngle pi, radius 1) with the default segment count (18)
yields exactly 18 - 1 = 17 interior points after the start vertex, and the
middle interior point is exactly (1, -1): the code traces the arc of this
positive bulge on the lower side of the chord, not through (1, 1). -/
theorem bulgeVertices_semicircle :
    segCount 1 none = 18 ∧
      (bulgeVertices ⟨0, 0⟩ ⟨2, 0⟩ 1 none).length = 18 ∧
      (bulgeVertices ⟨0, 0⟩ ⟨2, 0⟩ 1 none).getD 0 ⟨0, 0⟩ = ⟨0, 0⟩ ∧
      (bulgeVertices ⟨0, 0⟩ ⟨2, 0⟩ 1 none).getD 9 ⟨0, 0⟩ = ⟨1, -1⟩ ∧
      bulgeRadius ⟨0, 0⟩ ⟨2, 0⟩ 1 = 1 := by
  refine ⟨semicircle_segCount, ?_, bulgeVertices_getD_zero _ _ _ _,
    semicircle_middle, semicircle_radius⟩
  rw [bulgeVertices_length _ _ _ _ (by rw [semicircle_segCount]; norm_num),
    semicircle_segCount]

/-- Claim C5, amended: bulge defaults to 1 whenever it is falsy (including
an explicit 0), and the default segment count is
max(|ceil(includedAngle / 10deg)|, 6) - the absolute value is taken OUTSIDE
the ceiling.  For nonnegative included angles this equals the claimed
max(ceil(|includedAngle| / 10deg), 6), but for negative included angles it
equals max(floor(|includedAngle| / 10deg), 6) instead. -/
theorem segCount_default_formula (bulge : ℝ) :
    bulgeEffective 0 = 1 ∧
      (bulge = 0 → segCount bulge none = segCount 1 none) ∧
      segCount bulge none = max (⌈bulgeAngle bulge / (Real.pi / 18)⌉).natAbs 6 ∧
      (0 ≤ bulgeAngle bulge → segCount bulge none = specSegCount bulge) ∧
      (bulgeAngle bulge < 0 →
        segCount bulge none =
          max (⌊|bulgeAngle bulge| / (Real.pi / 18)⌋).toNat 6) := by
  refine ⟨by simp [bulgeEffective], ?_, rfl, ?_, ?_⟩
  · intro h
    subst h
    simp [segCount, bulgeAngle, bulgeEffective]
  · intro h
    show defaultSegments _ = _
    rw [defaultSegments, specSegCount, abs_of_nonneg h]
    have hx : (0 : ℝ) ≤ bulgeAngle bulge / (Real.pi / 18) :=
      div_nonneg h (by positivity)
    have hc := Int.ceil_nonneg hx
    omega
  · intro h
    show defaultSegments _ = _
    rw [defaultSegments]
    rw [show bulgeAngle bulge / (Real.pi / 18) =
      -(|bulgeAngle bulge| / (Real.pi / 18)) by rw [abs_of_neg h]; ring]
    rw [Int.ceil_neg]
    have hx : (0 : ℝ) ≤ |bulgeAngle bulge| / (Real.pi / 18) :=
      div_nonneg (abs_nonneg _) (by positivity)
    have hf := Int.floor_nonneg.mpr hx
    omega

/-- Witness for claim C5 at the concrete bulge 1 (includedAngle pi, a
nonnegative angle, where the code agrees with the claimed formula). -/
theorem segCount_default_formula_witness :
    segCount 1 none = specSegCount 1 :=
  (segCount_default_formula 1).2.2.2.1 (by rw [bulgeAngle_one]; exact Real.pi_pos.le)

/-- Claim C5, counterexample: for the bulge tan(-(13 pi/144)) the included
angle is -13 pi/36, whose ratio to 10 degrees is exactly -6.5; the code
chooses max(|ceil(-6.5)|, 6) = max(6, 6) = 6 segments while the claimed
formula gives max(ceil(|-6.5|), 6) = max(7, 6) = 7. -/
theorem segCount_negative_bulge_counterexample :
    segCount (Real.tan (-(13 * Real.pi / 144))) none = 6 ∧
      specSegCount (Real.tan (-(13 * Real.pi / 144))) = 7 := by
  have hpi := Real.pi_pos
  have h1 : -(Real.pi / 2) < -(13 * Real.pi / 144) := by nlinarith
  have h2 : -(13 * Real.pi / 144) < Real.pi / 2 := by nlinarith
  have harc : Real.arctan (Real.tan (-(13 * Real.pi / 144))) =
      -(13 * Real.pi / 144) := Real.arctan_tan h1 h2
  have hne : Real.tan (-(13 * Real.pi / 144)) ≠ 0 := by
    intro h
    rw [h, Real.arctan_zero] at harc
    nlinarith
  have hangle : bulgeAngle (Real.tan (-(13 * Real.pi / 144))) =
      -(13 * Real.pi / 36) := by
    rw [bulgeAngle, bulgeEffective, if_neg hne, harc]
    ring
  have hratio : bulgeAngle (Real.tan (-(13 * Real.pi / 144))) / (Real.pi / 18) =
      -13 / 2 := by
    rw [hangle]
    field_simp
    ring
  have habs : |bulgeAngle (Real.tan (-(13 * Real.pi / 144)))| / (Real.pi / 18) =
      13 / 2 := by
    rw [hangle, abs_of_neg (by nlinarith : -(13 * Real.pi / 36) < 0)]
    field_simp
    ring
  have hc1 : ⌈(-13 / 2 : ℝ)⌉ = -6 := by
    rw [Int.ceil_eq_iff]
    norm_num
  have hc2 : ⌈(13 / 2 : ℝ)⌉ = 7 := by
    rw [Int.ceil_eq_iff]
    norm_num
  constructor
  · show defaultSegments _ = 6
    rw [defaultSegments, hratio, hc1]
    norm_num
  · rw [specSegCount, habs, hc2]
    norm_num
    rfl

/-- Claim C6, counterexample: with start = end = (0,0), bulge 1 and 6
segments the end point IS a member of the output vertex list: the list
begins with the start vertex, which equals the end point (here radius = 0,
so every interior point is (0,0) as well). -/
theorem bulgeVertices_contains_end_point :
    (⟨0, 0⟩ : RPt) ∈ bulgeVertices ⟨0, 0⟩ ⟨0, 0⟩ 1 (some 6) := by
  simp only [bulgeVertices]
  exact List.mem_cons_self _ _

/-- Claim C6, amended: for every start, end, bulge and positive segment
count n the vertex list is exactly the start point followed by the n - 1
interior arc points polar(center, |radius|, startAngle + thetaStep * i) for
i = 1 .. n-1, in that order; the end point is never appended as such, but
the original clause that the list never CONTAINS the end point fails when an
emitted vertex coincides with it, e.g. when start = end. -/
theorem bulgeVertices_structure (p0 p1 : RPt) (bulge : ℝ) (n : ℕ)
    (hn : 1 ≤ n) :
    (bulgeVertices p0 p1 bulge (some n)).length = n ∧
      (bulgeVertices p0 p1 bulge (some n)).getD 0 ⟨0, 0⟩ = p0 ∧
      ∀ i, 1 ≤ i → i < n →
        (bulgeVertices p0 p1 bulge (some n)).getD i ⟨0, 0⟩ =
          polar (bulgeCenter p0 p1 bulge) |bulgeRadius p0 p1 bulge|
            (bulgeStartAngle p0 p1 bulge + bulgeAngle bulge / (n : ℝ) * i) := by
  have hs : segCount bulge (some n) = n := segCount_some _ _ (by omega)
  refine ⟨?_, bulgeVertices_getD_zero _ _ _ _, ?_⟩
  · rw [bulgeVertices_length _ _ _ _ (by rw [hs]; omega), hs]
  · intro i hi1 hi2
    rw [bulgeVertices_getD _ _ _ _ i hi1 (by rw [hs]; omega), hs]

/-- Witness for claim C6 at start (0,0), end (2,0), bulge 1, 6 segments. -/
theorem bulgeVertices_structure_witness :
    (bulgeVertices ⟨0, 0⟩ ⟨2, 0⟩ 1 (some 6)).length = 6 ∧
      (bulgeVertices ⟨0, 0⟩ ⟨2, 0⟩ 1 (some 6)).getD 0 ⟨0, 0⟩ = ⟨0, 0⟩ ∧
      ∀ i, 1 ≤ i → i < 6 →
        (bulgeVertices ⟨0, 0⟩ ⟨2, 0⟩ 1 (some 6)).getD i ⟨0, 0⟩ =
          polar (bulgeCenter ⟨0, 0⟩ ⟨2, 0⟩ 1) |bulgeRadius ⟨0, 0⟩ ⟨2, 0⟩ 1|
            (bulgeStartAngle ⟨0, 0⟩ ⟨2, 0⟩ 1 + bulgeAngle 1 / ((6 : ℕ) : ℝ) * i) :=
  bulgeVertices_structure ⟨0, 0⟩ ⟨2, 0⟩ 1 6 (by norm_num)

/-- Claim C1 (evaluation at the failing input): against query (0,0)-(4,4),
candidate 0 = (3,4)-(4,6) computes the crossing (2,2) of the carrying lines,
which fails the acceptance condition (it lies outside candidate 0's bounding
box); candidate 1 = (0,2)-(4,6) is parallel to the query, so no point is
computed for it - yet its iteration re-checks the stale (2,2) left in the
function-scoped intersectX/intersectY and pushes it, so the engine returns
[(2,2)], refuting the claimed characterisation of the result.  The two
concrete examples of the claim (the crossing diagonals and the shared
endpoint) do hold. -/
theorem findCrossPoint_stale_point :
    findCrossPoint ⟨0, 0⟩ ⟨4, 4⟩ [⟨⟨3, 4⟩, ⟨4, 6⟩⟩, ⟨⟨0, 2⟩, ⟨4, 6⟩⟩] = [⟨2, 2⟩] ∧
      intersectCase (getCoefficienConst ⟨0, 0⟩ ⟨4, 4⟩).1
        (getCoefficienConst ⟨0, 0⟩ ⟨4, 4⟩).2
        (getCoefficienConst ⟨3, 4⟩ ⟨4, 6⟩).1
        (getCoefficienConst ⟨3, 4⟩ ⟨4, 6⟩).2 = .found ⟨2, 2⟩ ∧
      ¬acceptCond ⟨0, 0⟩ ⟨4, 4⟩ ⟨⟨3, 4⟩, ⟨4, 6⟩⟩ ⟨2, 2⟩ ∧
      intersectCase (getCoefficienConst ⟨0, 0⟩ ⟨4, 4⟩).1
        (getCoefficienConst ⟨0, 0⟩ ⟨4, 4⟩).2
        (getCoefficienConst ⟨0, 2⟩ ⟨4, 6⟩).1
        (getCoefficienConst ⟨0, 2⟩ ⟨4, 6⟩).2 = .keep ∧
      findCrossPoint ⟨0, 0⟩ ⟨2, 2⟩ [⟨⟨0, 2⟩, ⟨2, 0⟩⟩] = [⟨1, 1⟩] ∧
      findCrossPoint ⟨0, 0⟩ ⟨1, 1⟩ [⟨⟨1, 1⟩, ⟨2, 0⟩⟩] = [] := by
  refine ⟨?_, ?_, ?_, ?_, ?_, ?_⟩ <;>
    norm_num [findCrossPoint, fcpRun, fcpStep, emitOf, nextXY, checkPush, acceptCond,
      bboxReject, intersectCase, getCoefficienConst, solveSimultaneousEquation,
      min_def, max_def]

/-- Claim C2 (evaluation at the failing input): candidate 1 = (0,4)-(8,12)
is parallel to the query (0,0)-(8,8) (both Sloped with slope 1), a None case
of the table; no error is raised, but the case is not skipped: its iteration
re-checks the stale (4,4) computed for candidate 0 = (6,8)-(8,12) (which had
been rejected) and pushes it, so the singular pair contributes a point.
Alone, the parallel candidate contributes nothing. -/
theorem findCrossPoint_singular_not_skipped :
    findCrossPoint ⟨0, 0⟩ ⟨8, 8⟩ [⟨⟨6, 8⟩, ⟨8, 12⟩⟩, ⟨⟨0, 4⟩, ⟨8, 12⟩⟩] = [⟨4, 4⟩] ∧
      intersectCase (some 1) (some 0) (some 1) (some 4) = .keep ∧
      findCrossPoint ⟨0, 0⟩ ⟨8, 8⟩ [⟨⟨0, 4⟩, ⟨8, 12⟩⟩] = [] ∧
      emitAt ⟨0, 0⟩ ⟨8, 8⟩ [⟨⟨6, 8⟩, ⟨8, 12⟩⟩, ⟨⟨0, 4⟩, ⟨8, 12⟩⟩] 1 = [⟨4, 4⟩] := by
  refine ⟨?_, ?_, ?_, ?_⟩ <;>
    norm_num [findCrossPoint, fcpRun, fcpStep, emitAt, emitOf, nextXY, checkPush,
      acceptCond, bboxReject, intersectCase, getCoefficienConst,
      solveSimultaneousEquation, min_def, max_def]

/-- Claim C3: getCoefficienConst classifies a point pair exactly as claimed:
Degenerate = (none, none) when both coordinates agree, Vertical(x) =
(some x, none) on equal x, Horizontal(y) = (none, some y) on equal y, and
otherwise Sloped(a, k) = (some a, some k) where a and k solve
[[x1,1],[x2,1]].[a,k] = [y1,y2]; with the three concrete examples of the
claim. -/
theorem getCoefficienConst_classifies (point1 point2 : Pt) :
    (point1.x = point2.x → point1.y = point2.y →
        getCoefficienConst point1 point2 = (none, none)) ∧
      (point1.x = point2.x → point1.y ≠ point2.y →
        getCoefficienConst point1 point2 = (some point1.x, none)) ∧
      (point1.x ≠ point2.x → point1.y = point2.y →
        getCoefficienConst point1 point2 = (none, some point1.y)) ∧
      (point1.x ≠ point2.x → point1.y ≠ point2.y →
        ∃ a k, getCoefficienConst point1 point2 = (some a, some k) ∧
          point1.x * a + k = point1.y ∧ point2.x * a + k = point2.y) ∧
      getCoefficienConst ⟨0, 0⟩ ⟨0, 5⟩ = (some 0, none) ∧
      getCoefficienConst ⟨0, 3⟩ ⟨5, 3⟩ = (none, some 3) ∧
      getCoefficienConst ⟨0, 0⟩ ⟨2, 2⟩ = (some 1, some 0) := by
  refine ⟨?_, ?_, ?_, ?_, ?_, ?_, ?_⟩
  · intro hx hy
    rw [getCoefficienConst, if_pos ⟨hx, hy⟩]
  · intro hx hy
    rw [getCoefficienConst, if_neg (by tauto), if_pos hx]
  · intro hx hy
    rw [getCoefficienConst, if_neg (by tauto), if_neg hx, if_pos hy]
  · intro hx hy
    have hsub : point1.x - point2.x ≠ 0 := sub_ne_zero.mpr hx
    have hdet : point1.x * 1 - 1 * point2.x ≠ 0 := by
      simpa using hsub
    refine ⟨(point1.y * 1 - 1 * point2.y) / (point1.x * 1 - 1 * point2.x),
      (point1.x * point2.y - point1.y * point2.x) / (point1.x * 1 - 1 * point2.x),
      ?_, ?_, ?_⟩
    · rw [getCoefficienConst, if_neg (by tauto), if_neg hx, if_neg hy]
      simp only [solveSimultaneousEquation]
      rw [if_neg hdet]
    · field_simp [hsub]
      ring
    · field_simp [hsub]
      ring
  all_goals
    norm_num [getCoefficienConst, solveSimultaneousEquation]

/-- Witness for claim C3 at the vertical example (0,0), (0,5). -/
theorem getCoefficienConst_classifies_witness :
    getCoefficienConst ⟨0, 0⟩ ⟨0, 5⟩ = (some 0, none) :=
  (getCoefficienConst_classifies ⟨0, 0⟩ ⟨0, 5⟩).2.2.2.2.1

/-! Structure lemmas for findCrossPoint used by the determinism/order
claim. -/

lemma checkPush_length_le_one (point1 point2 : Pt) (s : Seg) (xy : Option Pt) :
    (checkPush point1 point2 s xy).length ≤ 1 := by
  rcases xy with _ | p
  · simp [checkPush]
  · simp only [checkPush]
    split <;> simp

lemma emitOf_length_le_one (point1 point2 : Pt) (xy : Option Pt) (s : Seg) :
    (emitOf point1 point2 xy s).length ≤ 1 := by
  simp only [emitOf]
  split
  · simp
  · split
    · simp
    · exact checkPush_length_le_one _ _ _ _
    · exact checkPush_length_le_one _ _ _ _

lemma fcpRun_append (point1 point2 : Pt) (l : List Seg) (s : Seg) :
    fcpRun point1 point2 (l ++ [s]) =
      ((fcpRun point1 point2 l).1 ++ emitOf point1 point2 (fcpRun point1 point2 l).2 s,
        nextXY point1 point2 (fcpRun point1 point2 l).2 s) := by
  simp [fcpRun, List.foldl_append, fcpStep]

lemma fcpRun_fst_eq_flatten (point1 point2 : Pt) (l : List Seg) :
    (fcpRun point1 point2 l).1 =
      ((List.range l.length).map (emitAt point1 point2 l)).flatten := by
  induction l using List.reverseRecOn with
  | nil => simp [fcpRun]
  | append_singleton l s ih =>
    rw [fcpRun_append]
    have hlen : (l ++ [s]).length = l.length + 1 := by simp
    rw [hlen, List.range_succ, List.map_append, List.flatten_append]
    dsimp only
    congr 1
    · rw [ih]
      congr 1
      refine List.map_congr_left fun c hc => ?_
      have hcl : c < l.length := List.mem_range.mp hc
      rw [emitAt, emitAt, List.take_append_of_le_length hcl.le,
        List.getD_eq_getElem?_getD, List.getD_eq_getElem?_getD,
        List.getElem?_append_left hcl]
    · rw [List.map_singleton, emitAt, List.take_append_of_le_length le_rfl,
        List.take_length, List.getD_eq_getElem?_getD, List.getElem?_concat_length]
      simp

/-- Claim C10: the intersection engine is deterministic - equal inputs give
equal outputs - and its result is exactly the concatenation, in ascending
candidate-index order, of the points emitted per loop iteration, each
iteration emitting at most one point. -/
theorem findCrossPoint_deterministic_ordered (point1 point2 : Pt)
    (l1 l2 : List Seg) (h : l1 = l2) :
    findCrossPoint point1 point2 l1 = findCrossPoint point1 point2 l2 ∧
      findCrossPoint point1 point2 l1 =
        ((List.range l1.length).map (emitAt point1 point2 l1)).flatten ∧
      ∀ c, (emitAt point1 point2 l1 c).length ≤ 1 := by
  subst h
  exact ⟨rfl, fcpRun_fst_eq_flatten _ _ _, fun c => emitOf_length_le_one _ _ _ _⟩

/-- Witness for claim C10 at the crossing-diagonals example. -/
theorem findCrossPoint_deterministic_ordered_witness :
    findCrossPoint ⟨0, 0⟩ ⟨2, 2⟩ [⟨⟨0, 2⟩, ⟨2, 0⟩⟩] =
        findCrossPoint ⟨0, 0⟩ ⟨2, 2⟩ [⟨⟨0, 2⟩, ⟨2, 0⟩⟩] ∧
      findCrossPoint ⟨0, 0⟩ ⟨2, 2⟩ [⟨⟨0, 2⟩, ⟨2, 0⟩⟩] =
        ((List.range ([⟨⟨0, 2⟩, ⟨2, 0⟩⟩] : List Seg).length).map
          (emitAt ⟨0, 0⟩ ⟨2, 2⟩ [⟨⟨0, 2⟩, ⟨2, 0⟩⟩])).flatten ∧
      ∀ c, (emitAt ⟨0, 0⟩ ⟨2, 2⟩ [⟨⟨0, 2⟩, ⟨2, 0⟩⟩] c).length ≤ 1 :=
  findCrossPoint_deterministic_ordered ⟨0, 0⟩ ⟨2, 2⟩ [⟨⟨0, 2⟩, ⟨2, 0⟩⟩]
    [⟨⟨0, 2⟩, ⟨2, 0⟩⟩] rfl

/-- Claim C7: the work item the intersection-phase generator yields for
index i carries segment i as the query and exactly the strict prefix
lines[0..i) (in deposit order; empty for i = 0) as the candidate list, and
running the item calls the engine with those arguments - so the pair (j, i)
with j < i is examined only from the later segment i. -/
theorem createGenerator_strict_prefix_items (lines : List Seg) (i : ℕ)
    (h : i < lines.length) :
    (createGenerator lines).length = lines.length ∧
      (createGenerator lines).getD i (⟨0, 0⟩, ⟨0, 0⟩, []) =
        ((lines.getD i ⟨⟨0, 0⟩, ⟨0, 0⟩⟩).start,
          (lines.getD i ⟨⟨0, 0⟩, ⟨0, 0⟩⟩).stop, lines.take i) ∧
      (lines.take i).length = i ∧
      (∀ j, j < i → (lines.take i).getD j ⟨⟨0, 0⟩, ⟨0, 0⟩⟩ =
        lines.getD j ⟨⟨0, 0⟩, ⟨0, 0⟩⟩) ∧
      runWorkItem ((createGenerator lines).getD i (⟨0, 0⟩, ⟨0, 0⟩, [])) =
        findCrossPoint (lines.getD i ⟨⟨0, 0⟩, ⟨0, 0⟩⟩).start
          (lines.getD i ⟨⟨0, 0⟩, ⟨0, 0⟩⟩).stop (lines.take i) := by
  have h2 : (createGenerator lines).getD i (⟨0, 0⟩, ⟨0, 0⟩, []) =
      ((lines.getD i ⟨⟨0, 0⟩, ⟨0, 0⟩⟩).start,
        (lines.getD i ⟨⟨0, 0⟩, ⟨0, 0⟩⟩).stop, lines.take i) := by
    rw [createGenerator, List.getD_eq_getElem?_getD, List.getElem?_map,
      List.getElem?_range h]
    simp
  refine ⟨by simp [createGenerator], h2, by rw [List.length_take]; omega, ?_, ?_⟩
  · intro j hj
    rw [List.getD_eq_getElem?_getD, List.getD_eq_getElem?_getD,
      List.getElem?_take_of_lt hj]
  · rw [h2]
    rfl

/-- Witness for claim C7: a three-segment list, looked at from its last
segment (index 2). -/
theorem createGenerator_strict_prefix_items_witness :
    (createGenerator [⟨⟨0, 0⟩, ⟨1, 0⟩⟩, ⟨⟨1, 0⟩, ⟨1, 1⟩⟩, ⟨⟨1, 1⟩, ⟨0, 1⟩⟩]).length = 3 ∧
      (createGenerator [⟨⟨0, 0⟩, ⟨1, 0⟩⟩, ⟨⟨1, 0⟩, ⟨1, 1⟩⟩, ⟨⟨1, 1⟩, ⟨0, 1⟩⟩]).getD 2
          (⟨0, 0⟩, ⟨0, 0⟩, []) =
        (⟨1, 1⟩, ⟨0, 1⟩, [⟨⟨0, 0⟩, ⟨1, 0⟩⟩, ⟨⟨1, 0⟩, ⟨1, 1⟩⟩]) ∧
      (([⟨⟨0, 0⟩, ⟨1, 0⟩⟩, ⟨⟨1, 0⟩, ⟨1, 1⟩⟩, ⟨⟨1, 1⟩, ⟨0, 1⟩⟩] : List Seg).take 2).length = 2 ∧
      (∀ j, j < 2 →
        (([⟨⟨0, 0⟩, ⟨1, 0⟩⟩, ⟨⟨1, 0⟩, ⟨1, 1⟩⟩, ⟨⟨1, 1⟩, ⟨0, 1⟩⟩] : List Seg).take 2).getD j
            ⟨⟨0, 0⟩, ⟨0, 0⟩⟩ =
          ([⟨⟨0, 0⟩, ⟨1, 0⟩⟩, ⟨⟨1, 0⟩, ⟨1, 1⟩⟩, ⟨⟨1, 1⟩, ⟨0, 1⟩⟩] : List Seg).getD j
            ⟨⟨0, 0⟩, ⟨0, 0⟩⟩) ∧
      runWorkItem ((createGenerator
          [⟨⟨0, 0⟩, ⟨1, 0⟩⟩, ⟨⟨1, 0⟩, ⟨1, 1⟩⟩, ⟨⟨1, 1⟩, ⟨0, 1⟩⟩]).getD 2
          (⟨0, 0⟩, ⟨0, 0⟩, [])) =
        findCrossPoint ⟨1, 1⟩ ⟨0, 1⟩ [⟨⟨0, 0⟩, ⟨1, 0⟩⟩, ⟨⟨1, 0⟩, ⟨1, 1⟩⟩] :=
  createGenerator_strict_prefix_items
    [⟨⟨0, 0⟩, ⟨1, 0⟩⟩, ⟨⟨1, 0⟩, ⟨1, 1⟩⟩, ⟨⟨1, 1⟩, ⟨0, 1⟩⟩] 2 (by norm_num)

/-! Accounting for the scheduler: each work item the cursor has yielded is
either a value in some worker-local vals array or the stored failure of the
worker that pulled it. -/

/-- The results a worker holds, as Except values. -/
def okVals {β ε : Type} (wk : PoolWorker β ε) : List (Except ε β) :=
  wk.vals.map Except.ok

/-- The failure a worker holds, if any, as an Except value. -/
def errVal {β ε : Type} (wk : PoolWorker β ε) : List (Except ε β) :=
  match wk.status with
  | .failed e => [Except.error e]
  | _ => []

/-- The multiset of outcomes the pool accounts for: values held by workers,
stored failures, and the outcomes of the items the cursor has not yielded
yet.  Every poolStep preserves it. -/
def poolMeasure {α β ε : Type} (exec : α → Except ε β) (s : PoolState α β ε) :
    Multiset (Except ε β) :=
  ↑((s.workers.map okVals).flatten) + ↑((s.workers.map errVal).flatten)
    + ↑(s.remaining.map exec)

lemma flatten_map_set_ms {γ δ : Type} (f : γ → List δ) (L : List γ) :
    ∀ (w : ℕ) (a b : γ), L.get? w = some a →
      (↑(((L.set w b).map f).flatten) + ↑(f a) : Multiset δ) =
        ↑((L.map f).flatten) + ↑(f b) := by
  induction L with
  | nil => intro w a b h; simp at h
  | cons c t ih =>
    intro w a b h
    cases w with
    | zero =>
      obtain rfl : c = a := by simpa using h
      simp only [List.set_cons_zero, List.map_cons, List.flatten_cons,
        ← Multiset.coe_add]
      abel
    | succ w =>
      have h' : t.get? w = some a := by simpa using h
      simp only [List.set_cons_succ, List.map_cons, List.flatten_cons,
        ← Multiset.coe_add]
      have hih := ih w a b h'
      calc (↑(f c) + ↑((t.set w b).map f).flatten : Multiset δ) + ↑(f a)
          = ↑(f c) + (↑(((t.set w b).map f).flatten) + ↑(f a)) := by abel
        _ = ↑(f c) + (↑((t.map f).flatten) + ↑(f b)) := by rw [hih]
        _ = ↑(f c) + ↑((t.map f).flatten) + ↑(f b) := by abel

lemma poolMeasure_step {α β ε : Type} (exec : α → Except ε β)
    (s : PoolState α β ε) (w : ℕ) :
    poolMeasure exec (poolStep exec s w) = poolMeasure exec s := by
  simp only [poolStep]
  cases hw : s.workers.get? w with
  | none => rfl
  | some wk =>
    obtain ⟨vals, st⟩ := wk
    cases st with
    | done => rfl
    | failed e => rfl
    | running =>
      cases hr : s.remaining with
      | nil =>
        have hok := flatten_map_set_ms okVals s.workers w ⟨vals, .running⟩
          ⟨vals, .done⟩ hw
        have herr := flatten_map_set_ms errVal s.workers w ⟨vals, .running⟩
          ⟨vals, .done⟩ hw
        rw [show okVals (⟨vals, .done⟩ : PoolWorker β ε) =
          okVals ⟨vals, .running⟩ from rfl] at hok
        rw [show errVal (⟨vals, .running⟩ : PoolWorker β ε) = [] from rfl,
          show errVal (⟨vals, .done⟩ : PoolWorker β ε) = [] from rfl] at herr
        simp only [poolMeasure, hr]
        rw [add_right_cancel hok, add_right_cancel herr]
      | cons a rest =>
        cases he : exec a with
        | ok b =>
          have hok := flatten_map_set_ms okVals s.workers w ⟨vals, .running⟩
            ⟨vals ++ [b], .running⟩ hw
          have herr := flatten_map_set_ms errVal s.workers w ⟨vals, .running⟩
            ⟨vals ++ [b], .running⟩ hw
          rw [show errVal (⟨vals, .running⟩ : PoolWorker β ε) = [] from rfl,
            show errVal (⟨vals ++ [b], .running⟩ : PoolWorker β ε) = [] from rfl]
            at herr
          have herr2 := add_right_cancel herr
          rw [show okVals (⟨vals ++ [b], .running⟩ : PoolWorker β ε) =
              okVals ⟨vals, .running⟩ ++ [Except.ok b] by simp [okVals],
            ← Multiset.coe_add] at hok
          have hok2 : (↑(((s.workers.set w ⟨vals ++ [b], .running⟩).map
                okVals).flatten) : Multiset (Except ε β)) +
                ↑(okVals (⟨vals, .running⟩ : PoolWorker β ε)) =
              (↑((s.workers.map okVals).flatten) +
                  ↑([Except.ok b] : List (Except ε β))) +
                ↑(okVals (⟨vals, .running⟩ : PoolWorker β ε)) := by
            rw [hok]
            abel
          have hok3 := add_right_cancel hok2
          simp only [poolMeasure, hr, List.map_cons, he]
          rw [hok3, herr2,
            show (Except.ok b : Except ε β) :: rest.map exec =
              [Except.ok b] ++ rest.map exec from rfl,
            ← Multiset.coe_add]
          abel
        | error e =>
          have hok := flatten_map_set_ms okVals s.workers w ⟨vals, .running⟩
            ⟨vals, .failed e⟩ hw
          have herr := flatten_map_set_ms errVal s.workers w ⟨vals, .running⟩
            ⟨vals, .failed e⟩ hw
          rw [show okVals (⟨vals, .failed e⟩ : PoolWorker β ε) =
            okVals ⟨vals, .running⟩ from rfl] at hok
          have hok2 := add_right_cancel hok
          rw [show errVal (⟨vals, .running⟩ : PoolWorker β ε) = [] from rfl,
            show errVal (⟨vals, .failed e⟩ : PoolWorker β ε) =
              [Except.error e] from rfl] at herr
          have herr2 : (↑(((s.workers.set w ⟨vals, .failed e⟩).map
                errVal).flatten) : Multiset (Except ε β)) =
              ↑((s.workers.map errVal).flatten) +
                ↑([Except.error e] : List (Except ε β)) := by
            have h3 : (↑(((s.workers.set w ⟨vals, .failed e⟩).map
                  errVal).flatten) : Multiset (Except ε β)) +
                  ↑([] : List (Except ε β)) =
                (↑((s.workers.map errVal).flatten) +
                    ↑([Except.error e] : List (Except ε β))) +
                  ↑([] : List (Except ε β)) := by
              rw [herr]
              abel
            exact add_right_cancel h3
          simp only [poolMeasure, hr, List.map_cons, he]
          rw [hok2, herr2,
            show (Except.error e : Except ε β) :: rest.map exec =
              [Except.error e] ++ rest.map exec from rfl,
            ← Multiset.coe_add]
          abel

lemma poolMeasure_foldl {α β ε : Type} (exec : α → Except ε β) :
    ∀ (schedule : List ℕ) (s : PoolState α β ε),
      poolMeasure exec (schedule.foldl (poolStep exec) s) = poolMeasure exec s := by
  intro schedule
  induction schedule with
  | nil => intro s; rfl
  | cons w t ih =>
    intro s
    rw [List.foldl_cons, ih, poolMeasure_step]

lemma flatten_map_replicate_nil {γ δ : Type} (f : γ → List δ) (x : γ)
    (hx : f x = []) : ∀ n : ℕ, ((List.replicate n x).map f).flatten = []
  | 0 => rfl
  | n + 1 => by
    rw [List.replicate_succ, List.map_cons, List.flatten_cons, hx,
      flatten_map_replicate_nil f x hx n]
    rfl

lemma poolMeasure_runPool {α β ε : Type} (exec : α → Except ε β)
    (items : List α) (concurrency : ℕ) (schedule : List ℕ) :
    poolMeasure exec (runPool exec items concurrency schedule) =
      ↑(items.map exec) := by
  rw [runPool, poolMeasure_foldl, poolMeasure, initPool]
  rw [flatten_map_replicate_nil okVals (⟨[], .running⟩ : PoolWorker β ε) rfl,
    flatten_map_replicate_nil errVal (⟨[], .running⟩ : PoolWorker β ε) rfl]
  simp

/-- A worker resolves only when it sees the drained cursor, and the cursor
never refills: once some worker is done, nothing remains. -/
def drainedOnDone {α β ε : Type} (s : PoolState α β ε) : Prop :=
  (∃ wk ∈ s.workers, wk.status = WStatus.done) → s.remaining = []

lemma drainedOnDone_step {α β ε : Type} (exec : α → Except ε β)
    (s : PoolState α β ε) (w : ℕ) (h : drainedOnDone s) :
    drainedOnDone (poolStep exec s w) := by
  simp only [poolStep]
  split
  · exact h
  next wk hw =>
    split
    · split
      next hr => intro _; rfl
      next a rest hr =>
        split
        next b he =>
          rintro ⟨wk', hmem, hdone⟩
          rcases List.mem_or_eq_of_mem_set hmem with hold | hnew
          · have hnil : s.remaining = [] := h ⟨wk', hold, hdone⟩
            rw [hr] at hnil
            exact absurd hnil (by simp)
          · rw [hnew] at hdone
            exact absurd hdone (by simp)
        next e he =>
          rintro ⟨wk', hmem, hdone⟩
          rcases List.mem_or_eq_of_mem_set hmem with hold | hnew
          · have hnil : s.remaining = [] := h ⟨wk', hold, hdone⟩
            rw [hr] at hnil
            exact absurd hnil (by simp)
          · rw [hnew] at hdone
            exact absurd hdone (by simp)
    · exact h

lemma drainedOnDone_foldl {α β ε : Type} (exec : α → Except ε β) :
    ∀ (schedule : List ℕ) (s : PoolState α β ε), drainedOnDone s →
      drainedOnDone (schedule.foldl (poolStep exec) s) := by
  intro schedule
  induction schedule with
  | nil => intro s h; exact h
  | cons w t ih =>
    intro s h
    rw [List.foldl_cons]
    exact ih _ (drainedOnDone_step exec s w h)

lemma drainedOnDone_runPool {α β ε : Type} (exec : α → Except ε β)
    (items : List α) (concurrency : ℕ) (schedule : List ℕ) :
    drainedOnDone (runPool exec items concurrency schedule) := by
  rw [runPool]
  refine drainedOnDone_foldl exec schedule _ ?_
  rintro ⟨wk, hmem, hdone⟩
  have heq := List.eq_of_mem_replicate hmem
  rw [heq] at hdone
  exact absurd hdone (by simp)

lemma workers_length_step {α β ε : Type} (exec : α → Except ε β)
    (s : PoolState α β ε) (w : ℕ) :
    (poolStep exec s w).workers.length = s.workers.length := by
  simp only [poolStep]
  split
  · rfl
  next wk hw =>
    split
    · split
      · simp
      · split <;> simp
    · rfl

lemma workers_length_runPool {α β ε : Type} (exec : α → Except ε β)
    (items : List α) (concurrency : ℕ) (schedule : List ℕ) :
    (runPool exec items concurrency schedule).workers.length = concurrency := by
  rw [runPool]
  have hfold : ∀ (sch : List ℕ) (s : PoolState α β ε),
      (sch.foldl (poolStep exec) s).workers.length = s.workers.length := by
    intro sch
    induction sch with
    | nil => intro s; rfl
    | cons w t ih =>
      intro s
      rw [List.foldl_cons, ih, workers_length_step]
  rw [hfold]
  simp [initPool]

/-- Claim C8: whenever the scheduler settles with result groups and the
concurrency bound is at least 1, the flattened result has exactly one entry
per work item and its multiset of values is exactly the items' outcomes -
each work item executed exactly once - for every schedule interleaving and
every concurrency bound, including bounds at or above the item count. -/
theorem asynccParallel_each_item_once {α β ε : Type} [DecidableEq ε]
    (exec : α → Except ε β) (items : List α) (concurrency : ℕ)
    (schedule : List ℕ) (groups : List (List β))
    (hC : 1 ≤ concurrency)
    (hres : asynccParallel exec items concurrency schedule = some groups) :
    groups.length = concurrency ∧
      groups.flatten.length = items.length ∧
      (groups.flatten.map Except.ok).Perm (items.map exec) := by
  rw [asynccParallel] at hres
  by_cases hall : ∀ wk ∈ (runPool exec items concurrency schedule).workers,
      wk.status = WStatus.done
  case neg =>
    rw [if_neg hall] at hres
    exact absurd hres (by simp)
  rw [if_pos hall] at hres
  obtain rfl : groups = (runPool exec items concurrency schedule).workers.map (·.vals) :=
    (Option.some.inj hres).symm
  have hlen : (runPool exec items concurrency schedule).workers.length = concurrency :=
    workers_length_runPool exec items concurrency schedule
  have hne : (runPool exec items concurrency schedule).workers ≠ [] := by
    intro h0
    rw [h0] at hlen
    simp at hlen
    omega
  obtain ⟨wk0, hw0⟩ := List.exists_mem_of_ne_nil _ hne
  have hrem : (runPool exec items concurrency schedule).remaining = [] :=
    drainedOnDone_runPool exec items concurrency schedule ⟨wk0, hw0, hall wk0 hw0⟩
  have herrnil : ((runPool exec items concurrency schedule).workers.map errVal).flatten
      = [] := by
    rw [List.flatten_eq_nil_iff]
    intro l hl
    rw [List.mem_map] at hl
    obtain ⟨wk, hwk, rfl⟩ := hl
    rw [errVal, hall wk hwk]
  have hmeas := poolMeasure_runPool exec items concurrency schedule
  rw [poolMeasure, hrem, herrnil] at hmeas
  simp only [List.map_nil, Multiset.coe_nil, add_zero] at hmeas
  have hok : ((runPool exec items concurrency schedule).workers.map okVals).flatten =
      (((runPool exec items concurrency schedule).workers.map (·.vals)).flatten).map
        Except.ok := by
    rw [List.map_flatten, List.map_map]
    rfl
  rw [hok] at hmeas
  have hperm := Multiset.coe_eq_coe.mp hmeas
  refine ⟨by simp [hlen], ?_, hperm⟩
  have hle := hperm.length_eq
  rw [List.length_map, List.length_map] at hle
  exact hle

/-- Witness for claim C8: three items, concurrency 2, an explicit
interleaving; worker 0 computes items 0 and 2, worker 1 computes item 1. -/
theorem asynccParallel_each_item_once_witness :
    ([[11, 31], [21]] : List (List ℕ)).length = 2 ∧
      ([[11, 31], [21]] : List (List ℕ)).flatten.length =
        ([10, 20, 30] : List ℕ).length ∧
      (([[11, 31], [21]] : List (List ℕ)).flatten.map Except.ok).Perm
        (([10, 20, 30] : List ℕ).map fun n => (Except.ok (n + 1) : Except ℕ ℕ)) :=
  asynccParallel_each_item_once (fun n => Except.ok (n + 1)) [10, 20, 30] 2
    [0, 1, 0, 0, 1] [[11, 31], [21]] (by norm_num) (by decide)

lemma get?_set_ne' {γ : Type} (L : List γ) (w u : ℕ) (x : γ) (h : u ≠ w) :
    (L.set w x).get? u = L.get? u := by
  rw [List.get?_eq_getElem?, List.get?_eq_getElem?,
    List.getElem?_set_ne (Ne.symm h)]

lemma poolStep_preserves_failed {α β ε : Type} (exec : α → Except ε β)
    (s : PoolState α β ε) (u w : ℕ) (wk : PoolWorker β ε) (e : ε)
    (hw : s.workers.get? u = some wk) (he : wk.status = WStatus.failed e) :
    ∃ wk', (poolStep exec s w).workers.get? u = some wk' ∧
      wk'.status = WStatus.failed e := by
  simp only [poolStep]
  split
  · exact ⟨wk, hw, he⟩
  next wk2 hw2 =>
    by_cases huw : u = w
    · subst huw
      rw [hw2] at hw
      obtain rfl := Option.some.inj hw
      split
      next hst =>
        rw [he] at hst
        simp at hst
      next x hst => exact ⟨wk2, hw2, he⟩
    · split
      · split
        · dsimp only
          exact ⟨wk, by rw [get?_set_ne' _ _ _ _ huw]; exact hw, he⟩
        · split
          · dsimp only
            exact ⟨wk, by rw [get?_set_ne' _ _ _ _ huw]; exact hw, he⟩
          · dsimp only
            exact ⟨wk, by rw [get?_set_ne' _ _ _ _ huw]; exact hw, he⟩
      · exact ⟨wk, hw, he⟩

lemma failed_persists_foldl {α β ε : Type} (exec : α → Except ε β) :
    ∀ (sch : List ℕ) (s : PoolState α β ε) (u : ℕ) (wk : PoolWorker β ε)
      (e : ε), s.workers.get? u = some wk → wk.status = WStatus.failed e →
      ∃ wk', (sch.foldl (poolStep exec) s).workers.get? u = some wk' ∧
        wk'.status = WStatus.failed e := by
  intro sch
  induction sch with
  | nil => intro s u wk e hw he; exact ⟨wk, hw, he⟩
  | cons w t ih =>
    intro s u wk e hw he
    rw [List.foldl_cons]
    obtain ⟨wk', hw', he'⟩ := poolStep_preserves_failed exec s u w wk e hw he
    exact ih _ u wk' e hw' he'

/-- Claim C9, amended: an error escaping a work item is indeed not caught by
the scheduler, but it does not propagate to the caller either, and it aborts
nothing: once some worker has failed, the scheduler's promise never settles
- however many further steps any workers take, the caller receives neither
the error nor any (partial or complete) results - while the remaining
workers keep pulling and executing the remaining items (the error surfaces
only as a global unhandled rejection of the worker's async executor, which
the Promise constructor ignores). -/
theorem asynccParallel_failure_never_settles {α β ε : Type} [DecidableEq ε]
    (exec : α → Except ε β) (items : List α) (concurrency : ℕ)
    (schedule : List ℕ) (u : ℕ) (wk : PoolWorker β ε) (e : ε)
    (hw : (runPool exec items concurrency schedule).workers.get? u = some wk)
    (he : wk.status = WStatus.failed e) :
    ∀ extra, asynccParallel exec items concurrency (schedule ++ extra) = none := by
  intro extra
  have hrun : runPool exec items concurrency (schedule ++ extra) =
      extra.foldl (poolStep exec) (runPool exec items concurrency schedule) := by
    rw [runPool, runPool, List.foldl_append]
  obtain ⟨wk', hw', he'⟩ := failed_persists_foldl exec extra
    (runPool exec items concurrency schedule) u wk e hw he
  have hnall : ¬ ∀ wk ∈ (runPool exec items concurrency (schedule ++ extra)).workers,
      wk.status = WStatus.done := by
    intro hall
    have hmem : wk' ∈ (runPool exec items concurrency (schedule ++ extra)).workers := by
      rw [hrun]
      exact List.get?_mem hw'
    have hd := hall wk' hmem
    rw [he'] at hd
    simp at hd
  rw [asynccParallel, if_neg hnall]

/-- The failing batch of the C9 counterexample: item 1 throws, the others
succeed. -/
def exec9 : ℕ → Except ℕ ℕ :=
  fun n => if n = 1 then Except.error 7 else Except.ok (n + 100)

/-- Witness for claim C9: after worker 1 has failed on item 1, the scheduler
never settles, whatever further steps are scheduled. -/
theorem asynccParallel_failure_never_settles_witness :
    asynccParallel exec9 [0, 1, 2] 2 ([0, 1, 0, 0] ++ [1, 0, 1]) = none :=
  asynccParallel_failure_never_settles exec9 [0, 1, 2] 2 [0, 1, 0, 0] 1
    ⟨[], WStatus.failed 7⟩ 7 (by decide) rfl [1, 0, 1]

/-- Claim C9, counterexample: work item 1 of the batch [0, 1, 2] throws
(exec9 1 = error 7).  Worker 1 fails on it, yet worker 0 goes on to pull and
execute item 2 (its vals end as [100, 102] with status done) and the cursor
is fully drained - the batch is NOT aborted and in-flight work is NOT
discarded - while the scheduler never settles (none), so the error does not
propagate to the caller and no partial results are returned. -/
theorem asynccParallel_error_not_propagated :
    exec9 1 = Except.error 7 ∧
      asynccParallel exec9 [0, 1, 2] 2 [0, 1, 0, 0] = none ∧
      (runPool exec9 [0, 1, 2] 2 [0, 1, 0, 0]).remaining = [] ∧
      (runPool exec9 [0, 1, 2] 2 [0, 1, 0, 0]).workers =
        [⟨[100, 102], WStatus.done⟩, ⟨[], WStatus.failed 7⟩] :=
  ⟨rfl, by decide, by decide, by decide⟩
